import Mathlib

/-!
Verification of the argoflow-azure configuration and secret-generation
scripts (`.helpers/replace.py`, `argoflow.py`, `secrets/argoflow_secrets.py`).

Python dictionaries are embedded as association lists (`List (String × α)`)
with unique keys maintained by `dset`, which updates an existing entry in
place (preserving its position, as a Python dict does) or appends a new one.
Python strings are embedded through their character lists (`String.data`);
the Python string methods used by the scripts (`str.replace`, `str.split`,
`str.strip`, `str.startswith`, `str.endswith`, `in`) are given structural
embeddings below so that everything evaluates by `decide`.
-/

set_option autoImplicit false

namespace Argoflow

/-- Lookup in a Python dict embedded as an association list: the value of
the first (unique) entry with the given key. Embeds `d[k]` / `k in d`. -/
def dget {α : Type} : List (String × α) → String → Option α
  | [], _ => none
  | p :: d, k => if p.1 = k then some p.2 else dget d k

/-- Assignment `d[k] = v` on a Python dict embedded as an association list:
replaces the value of an existing entry in place, else appends. -/
def dset {α : Type} : List (String × α) → String → α → List (String × α)
  | [], k, v => [(k, v)]
  | p :: d, k, v => if p.1 = k then (k, v) :: d else p :: dset d k v

theorem dget_dset_self {α : Type} (d : List (String × α)) (k : String) (v : α) :
    dget (dset d k v) k = some v := by
  induction d with
  | nil => simp [dget, dset]
  | cons p d ih =>
    by_cases h : p.1 = k
    · simp [dget, dset, h]
    · simp [dget, dset, h, ih]

theorem dget_dset_ne {α : Type} (d : List (String × α)) (k k' : String) (v : α)
    (h : k' ≠ k) : dget (dset d k v) k' = dget d k' := by
  have h' : ¬ k = k' := fun hk => h hk.symm
  induction d with
  | nil => simp [dget, dset, h']
  | cons p d ih =>
    by_cases hp : p.1 = k
    · simp [dget, dset, hp, h']
    · by_cases hp' : p.1 = k'
      · simp [dget, dset, hp, hp', h]
      · simp [dget, dset, hp, hp', ih]

/-- `p.isPrefixOf s` on character lists; embeds Python `s.startswith(p)`
restricted to the front of the string. -/
def leadsWith : List Char → List Char → Bool
  | [], _ => true
  | _ :: _, [] => false
  | a :: p, c :: s => a == c && leadsWith p s

/-- Embeds Python `s.startswith(p)`. -/
def pyStartsWith (s p : String) : Bool := leadsWith p.data s.data

/-- Embeds Python `s.endswith(p)`. -/
def pyEndsWith (s p : String) : Bool := leadsWith p.data.reverse s.data.reverse

/-- Embeds Python `p in s` (substring containment) on character lists. -/
def listContains (p : List Char) : List Char → Bool
  | [] => p.isEmpty
  | c :: t => leadsWith p (c :: t) || listContains p t

/-- Embeds Python `s.strip()`: drop whitespace from both ends. -/
def pyStrip (s : String) : String :=
  ⟨((s.data.dropWhile Char.isWhitespace).reverse.dropWhile Char.isWhitespace).reverse⟩

/-- Embeds Python `s.split(sep)` for a one-character separator:
always returns a non-empty list of (possibly empty) chunks. -/
def splitChar (sep : Char) : List Char → List (List Char)
  | [] => [[]]
  | c :: t =>
    if c == sep then [] :: splitChar sep t
    else
      match splitChar sep t with
      | [] => [[c]]
      | h :: r => (c :: h) :: r

/-- Embeds Python `sep.join(xs)` for the one-character separator `=`. -/
def joinEq : List (List Char) → List Char
  | [] => []
  | [x] => x
  | x :: r => x ++ '=' :: joinEq r

theorem leadsWith_append (p rest : List Char) : leadsWith p (p ++ rest) = true := by
  induction p with
  | nil => rfl
  | cons a p ih => simp [leadsWith, ih]

/-!
## `.helpers/replace.py`
-/

/-- Embeds `'=' in line`. -/
def hasEq (line : String) : Bool := line.data.contains '='

/-- Embeds `line.strip().startswith('#')` from `parse_conf`. -/
def isCommentLine (line : String) : Bool := leadsWith ['#'] (pyStrip line).data

/-- Embeds `line.split('=')[0]` from `parse_conf` (the key is not stripped). -/
def lineKey (line : String) : String := ⟨(splitChar '=' line.data).headD []⟩

/-- Embeds `'='.join(line.split('=')[1:]).strip()` from `parse_conf`. -/
def lineVal (line : String) : String := pyStrip ⟨joinEq (splitChar '=' line.data).tail⟩

/-- Embeds `parse_conf` from `.helpers/replace.py`: keep the lines that
contain `=`, skip those whose stripped form starts with `#`, and assign
`d[splits[0]] = '='.join(splits[1:]).strip()` in order. -/
def parse_conf (lines : List String) : List (String × String) :=
  (lines.filter hasEq).foldl
    (fun d line =>
      if isCommentLine line then d
      else dset d (lineKey line) (lineVal line))
    []

/-- Embeds the module-level construction of `d` in `.helpers/replace.py`:
prefix every config key with `ARGOFLOW_` (or start from `{}` when no
config file was given), then overlay every `ARGOFLOW_*` environment
variable. The process environment is embedded as an association list with
unique keys, iterated in order. -/
def buildD (config : Option (List String)) (env : List (String × String)) :
    List (String × String) :=
  let d0 := match config with
    | some confLines => (parse_conf confLines).map (fun p => ("ARGOFLOW_" ++ p.1, p.2))
    | none => []
  env.foldl (fun d p => if pyStartsWith p.1 "ARGOFLOW_" then dset d p.1 p.2 else d) d0

/-- Embeds Python `text.replace(p, r)` scanning left to right and replacing
non-overlapping occurrences. The `skip` counter carries the characters of a
just-matched occurrence that remain to be consumed. (The scripts only ever
call `replace` with a non-empty pattern, `'$' + k`; for an empty pattern
this embedding returns the text unchanged.) -/
def pyReplaceGo (p r : List Char) : List Char → Nat → List Char
  | [], _ => []
  | _ :: t, skip + 1 => pyReplaceGo p r t skip
  | c :: t, 0 =>
    if !p.isEmpty && leadsWith p (c :: t) then
      r ++ pyReplaceGo p r t (p.length - 1)
    else
      c :: pyReplaceGo p r t 0

/-- Embeds Python `text.replace(pat, rep)` on strings. -/
def strReplace (text pat rep : String) : String :=
  ⟨pyReplaceGo pat.data rep.data text.data 0⟩

/-- Embeds the substitution loop of `.helpers/replace.py`:
`for (k,v) in d.items(): text = text.replace('$' + k, v)`. -/
def applyReplacements (d : List (String × String)) (text : String) : String :=
  d.foldl (fun t p => strReplace t ("$" ++ p.1) p.2) text

/-!
## Env-file loading and pydantic settings resolution
(`argoflow.py` lines 205-214, `secrets/argoflow_secrets.py` lines 435-444)
-/

/-- Embeds the `--env-file` loading loop shared by `argoflow.py` and
`secrets/argoflow_secrets.py`: for each `(k, v)` in the parsed env file,
skip the pair when `k in environ`, else `environ[k] = v`. -/
def loadEnvFile (env : List (String × String)) (config : List (String × String)) :
    List (String × String) :=
  config.foldl (fun e p => if (dget e p.1).isSome then e else dset e p.1 p.2) env

/-- Embeds how a single pydantic `BaseSettings` field is resolved by the
scripts (pydantic is an external library; this is its documented behaviour
as used here): the field named `k` takes the environment value when the
environment variable is set, else the declared default, else instantiation
raises a `ValidationError` mentioning the missing field. -/
def resolveField (env : List (String × String)) (k : String)
    (dflt : Option String) : Except String String :=
  match dget env k with
  | some v => .ok v
  | none =>
    match dflt with
    | some d => .ok d
    | none => .error ("ValidationError: field required: " ++ k)

/-!
## Helper lemmas about the environment overlay and env-file loading
-/

theorem fold_env_dget_not_mem (env : List (String × String))
    (d : List (String × String)) (k : String) (h : k ∉ env.map Prod.fst) :
    dget (env.foldl
      (fun d p => if pyStartsWith p.1 "ARGOFLOW_" then dset d p.1 p.2 else d) d) k
      = dget d k := by
  induction env generalizing d with
  | nil => rfl
  | cons p env ih =>
    simp only [List.map_cons, List.mem_cons, not_or] at h
    simp only [List.foldl_cons]
    rw [ih _ h.2]
    by_cases hp : pyStartsWith p.1 "ARGOFLOW_"
    · rw [if_pos hp, dget_dset_ne _ _ _ _ h.1]
    · rw [if_neg hp]

theorem fold_env_dget_wins (env : List (String × String))
    (d : List (String × String)) (k : String) (v : String)
    (hnd : (env.map Prod.fst).Nodup) (hmem : (k, v) ∈ env)
    (hpre : pyStartsWith k "ARGOFLOW_" = true) :
    dget (env.foldl
      (fun d p => if pyStartsWith p.1 "ARGOFLOW_" then dset d p.1 p.2 else d) d) k
      = some v := by
  induction env generalizing d with
  | nil => cases hmem
  | cons p env ih =>
    simp only [List.map_cons, List.nodup_cons] at hnd
    simp only [List.foldl_cons]
    rcases List.mem_cons.mp hmem with hh | ht
    · have hk : p.1 = k := by rw [← hh]
      have hv : p.2 = v := by rw [← hh]
      have hknot : k ∉ env.map Prod.fst := hk ▸ hnd.1
      have hpre' : pyStartsWith p.1 "ARGOFLOW_" = true := by rw [hk]; exact hpre
      rw [fold_env_dget_not_mem _ _ _ hknot, if_pos hpre', hk, hv]
      exact dget_dset_self d k v
    · exact ih _ hnd.2 ht


theorem loadEnvFile_env_wins (config env : List (String × String)) (k v : String)
    (h : dget env k = some v) : dget (loadEnvFile env config) k = some v := by
  induction config generalizing env with
  | nil => exact h
  | cons p config ih =>
    simp only [loadEnvFile, List.foldl_cons] at ih ⊢
    by_cases hs : (dget env p.1).isSome
    · rw [if_pos hs]; exact ih env h
    · rw [if_neg hs]
      have hne : k ≠ p.1 := by
        intro hk
        rw [← hk, h] at hs
        exact hs rfl
      exact ih _ ((dget_dset_ne env p.1 k p.2 hne).trans h)

theorem loadEnvFile_conf_fallback (config env : List (String × String)) (k v : String)
    (henv : dget env k = none) (hconf : dget config k = some v) :
    dget (loadEnvFile env config) k = some v := by
  induction config generalizing env with
  | nil => cases hconf
  | cons p config ih =>
    simp only [loadEnvFile, List.foldl_cons] at ih ⊢
    by_cases hp : p.1 = k
    · have hv : p.2 = v := by
        rw [dget, if_pos hp] at hconf
        exact Option.some.inj hconf
      have hs : ¬ (dget env p.1).isSome := by
        rw [hp, henv]; simp
      rw [if_neg hs]
      exact loadEnvFile_env_wins config _ k v (hp ▸ hv ▸ dget_dset_self env p.1 p.2)
    · rw [dget, if_neg hp] at hconf
      by_cases hs : (dget env p.1).isSome
      · rw [if_pos hs]; exact ih env henv hconf
      · rw [if_neg hs]
        exact ih _ ((dget_dset_ne env p.1 k p.2 (fun hk => hp hk.symm)).trans henv) hconf

theorem loadEnvFile_none (config env : List (String × String)) (k : String)
    (henv : dget env k = none) (hconf : dget config k = none) :
    dget (loadEnvFile env config) k = none := by
  induction config generalizing env with
  | nil => exact henv
  | cons p config ih =>
    simp only [loadEnvFile, List.foldl_cons] at ih ⊢
    have hp : ¬ p.1 = k := by
      intro hk
      rw [dget, if_pos hk] at hconf
      cases hconf
    rw [dget, if_neg hp] at hconf
    by_cases hs : (dget env p.1).isSome
    · rw [if_pos hs]; exact ih env henv hconf
    · rw [if_neg hs]
      exact ih _ ((dget_dset_ne env p.1 k p.2 (fun hk => hp hk.symm)).trans henv) hconf

/-- C1: environment values always win. For `.helpers/replace.py`, any
`ARGOFLOW_*` environment entry determines the resolved value of its key in
`d`, whatever the config file contains and in whatever order (the config
lines are universally quantified). For the `--env-file` loading of
`argoflow.py` and `secrets/argoflow_secrets.py` followed by pydantic field
resolution: a set environment variable wins over the env file and over the
generated default; the env-file value is used exactly when no environment
variable exists; the default is used only when neither exists. -/
theorem env_always_wins :
    (∀ (config : Option (List String)) (env : List (String × String)) (k v : String),
      (env.map Prod.fst).Nodup → (k, v) ∈ env → pyStartsWith k "ARGOFLOW_" = true →
      dget (buildD config env) k = some v)
    ∧ (∀ (config : List String) (env : List (String × String)) (k : String),
      k ∉ env.map Prod.fst →
      dget (buildD (some config) env) k
        = dget ((parse_conf config).map (fun p => ("ARGOFLOW_" ++ p.1, p.2))) k)
    ∧ (∀ (env config : List (String × String)) (k v : String) (dflt : Option String),
      dget env k = some v → resolveField (loadEnvFile env config) k dflt = .ok v)
    ∧ (∀ (env config : List (String × String)) (k v : String) (dflt : Option String),
      dget env k = none → dget config k = some v →
      resolveField (loadEnvFile env config) k dflt = .ok v)
    ∧ (∀ (env config : List (String × String)) (k d : String),
      dget env k = none → dget config k = none →
      resolveField (loadEnvFile env config) k (some d) = .ok d) := by
  refine ⟨?_, ?_, ?_, ?_, ?_⟩
  · intro config env k v hnd hmem hpre
    exact fold_env_dget_wins env _ k v hnd hmem hpre
  · intro config env k h
    exact fold_env_dget_not_mem env _ k h
  · intro env config k v dflt h
    have h2 := loadEnvFile_env_wins config env k v h
    simp [resolveField, h2]
  · intro env config k v dflt henv hconf
    have h2 := loadEnvFile_conf_fallback config env k v henv hconf
    simp [resolveField, h2]
  · intro env config k d henv hconf
    have h2 := loadEnvFile_none config env k henv hconf
    simp [resolveField, h2]

/-- Witness for C1 at concrete inputs: `ARGOFLOW_X` is both in the config
file (value `filev`) and in the environment (value `envv`); the environment
wins; a key only in the env file takes the file value; a key in neither
takes the default. -/
theorem env_always_wins_witness :
    dget (buildD (some ["X=filev"]) [("ARGOFLOW_X", "envv"), ("PATH", "p")])
        "ARGOFLOW_X" = some "envv"
    ∧ resolveField (loadEnvFile [("A", "1")] [("A", "2"), ("B", "3")]) "A" none = .ok "1"
    ∧ resolveField (loadEnvFile [("A", "1")] [("A", "2"), ("B", "3")]) "B" none = .ok "3"
    ∧ resolveField (loadEnvFile [("A", "1")] [("A", "2"), ("B", "3")]) "C"
        (some "dflt") = .ok "dflt" :=
  ⟨env_always_wins.1 (some ["X=filev"]) [("ARGOFLOW_X", "envv"), ("PATH", "p")]
      "ARGOFLOW_X" "envv" (by decide) (by decide) (by decide),
    env_always_wins.2.2.1 [("A", "1")] [("A", "2"), ("B", "3")] "A" "1" none (by decide),
    env_always_wins.2.2.2.1 [("A", "1")] [("A", "2"), ("B", "3")] "B" "3" none
      (by decide) (by decide),
    env_always_wins.2.2.2.2 [("A", "1")] [("A", "2"), ("B", "3")] "C" "dflt"
      (by decide) (by decide)⟩

/-- A line of the config file that contributes a key/value pair in
`parse_conf`: it contains `=` and its stripped form does not start with `#`. -/
def isKVLine (l : String) : Bool := hasEq l && !isCommentLine l

theorem parse_conf_dget (lines : List String) (k : String) :
    dget (parse_conf lines) k
      = ((lines.filter (fun l => isKVLine l && (lineKey l == k))).getLast?).map lineVal := by
  induction lines using List.reverseRecOn with
  | nil => rfl
  | append_singleton ls x ih =>
    unfold parse_conf at ih ⊢
    rw [List.filter_append, List.filter_append, List.foldl_append]
    by_cases he : hasEq x
    · by_cases hc : isCommentLine x
      · have hkv : (isKVLine x && (lineKey x == k)) = false := by
          simp [isKVLine, hc]
        simp [he, hc, hkv, List.filter_cons, ih]
      · by_cases hk : lineKey x = k
        · have hkv : (isKVLine x && (lineKey x == k)) = true := by
            simp [isKVLine, he, hc, hk]
          have hkvl : isKVLine x = true := by simp [isKVLine, he, hc]
          simp [he, hc, hkv, hkvl, List.filter_cons, hk, dget_dset_self]
        · have hkv : (isKVLine x && (lineKey x == k)) = false := by
            simp [isKVLine, hk]
          have hne : k ≠ lineKey x := fun hh => hk hh.symm
          simp [he, hc, hkv, List.filter_cons, dget_dset_ne _ _ _ _ hne, ih]
    · have hkv : (isKVLine x && (lineKey x == k)) = false := by
        simp [isKVLine, he]
      simp [he, hkv, List.filter_cons, ih]

/-- C6: a config-file line whose stripped form starts with `#` is ignored by
`parse_conf`: deleting it from the file (wherever it sits, and even when it
contains `=`) does not change the parsed mapping. -/
theorem comment_lines_ignored (pre : List String) (l : String) (post : List String)
    (h : isCommentLine l = true) :
    parse_conf (pre ++ l :: post) = parse_conf (pre ++ post) := by
  unfold parse_conf
  rw [List.filter_append, List.filter_append, List.filter_cons]
  by_cases he : hasEq l
  · simp only [he, if_true]
    rw [List.foldl_append, List.foldl_cons, if_pos h, ← List.foldl_append]
  · simp [he]

/-- Witness for C6: the commented line `# B=2` contains `=` but contributes
nothing to the parsed mapping. -/
theorem comment_lines_ignored_witness :
    parse_conf ["A=1", "# B=2", "C=3"] = parse_conf ["A=1", "C=3"] :=
  comment_lines_ignored ["A=1"] "# B=2" ["C=3"] (by decide)

/-- C7: within one mapping source resolution is last-writer-wins. The value
`parse_conf` associates with a key is the value of the last `=`-containing,
non-comment line whose key part equals that key; and a later overlay of the
same key on the resulting dict (as the environment overlay does with `dset`)
replaces the earlier value. -/
theorem last_writer_wins (lines : List String) (k : String) :
    (dget (parse_conf lines) k
      = ((lines.filter (fun l => isKVLine l && (lineKey l == k))).getLast?).map lineVal)
    ∧ (∀ (d : List (String × String)) (v : String), dget (dset d k v) k = some v) :=
  ⟨parse_conf_dget lines k, fun d v => dget_dset_self d k v⟩

/-!
## Lemmas about the embedded `str.replace`
-/

theorem pyReplaceGo_skip (p r : List Char) (t : List Char) (skip : Nat) :
    pyReplaceGo p r t skip = pyReplaceGo p r (t.drop skip) 0 := by
  induction t generalizing skip with
  | nil => cases skip <;> rfl
  | cons c t ih =>
    cases skip with
    | zero => rfl
    | succ n =>
      calc pyReplaceGo p r (c :: t) (n + 1) = pyReplaceGo p r t n := rfl
        _ = pyReplaceGo p r (t.drop n) 0 := ih n
        _ = pyReplaceGo p r ((c :: t).drop (n + 1)) 0 := by rw [List.drop_succ_cons]

theorem pyReplaceGo_no_occ (p r s : List Char) (h : listContains p s = false) :
    pyReplaceGo p r s 0 = s := by
  induction s with
  | nil => rfl
  | cons c t ih =>
    rw [listContains, Bool.or_eq_false_iff] at h
    simp [pyReplaceGo, h.1, ih h.2]

theorem pyReplaceGo_head_match (p r rest : List Char) (hp : p ≠ []) :
    pyReplaceGo p r (p ++ rest) 0 = r ++ pyReplaceGo p r rest 0 := by
  cases p with
  | nil => exact absurd rfl hp
  | cons a p' =>
    have hl : leadsWith (a :: p') (a :: (p' ++ rest)) = true := leadsWith_append _ _
    have hcond : (!(a :: p').isEmpty && leadsWith (a :: p') (a :: (p' ++ rest))) = true := by
      simp [hl]
    rw [List.cons_append, pyReplaceGo, hcond, if_pos rfl, pyReplaceGo_skip]
    simp [List.drop_left]

theorem pyReplaceGo_self (p r : List Char) (hp : p ≠ []) :
    pyReplaceGo p r p 0 = r := by
  have h := pyReplaceGo_head_match p r [] hp
  rw [List.append_nil, show pyReplaceGo p r [] 0 = [] from rfl, List.append_nil] at h
  exact h

theorem strReplace_no_occ (t pat rep : String)
    (h : listContains pat.data t.data = false) : strReplace t pat rep = t :=
  congrArg String.mk (pyReplaceGo_no_occ pat.data rep.data t.data h)

theorem applyReplacements_no_occ (d : List (String × String)) (t : String)
    (h : ∀ p ∈ d, listContains ("$" ++ p.1).data t.data = false) :
    applyReplacements d t = t := by
  induction d with
  | nil => rfl
  | cons p d ih =>
    show applyReplacements d (strReplace t ("$" ++ p.1) p.2) = t
    rw [strReplace_no_occ t _ p.2 (h p (List.mem_cons_self p d))]
    exact ih (fun q hq => h q (List.mem_cons_of_mem p hq))

/-- C2 counterexample: the substitution loop of `.helpers/replace.py` is
order-dependent. With keys `ARGOFLOW_A` (value `x`) and `ARGOFLOW_AB`
(value `y`), the token `$ARGOFLOW_AB` is partially consumed by the shorter
key when the shorter key is iterated first, yielding `xB` instead of `y`;
the claimed result `y` is obtained only in the other iteration order. -/
theorem substitution_not_order_independent :
    applyReplacements [("ARGOFLOW_A", "x"), ("ARGOFLOW_AB", "y")] "$ARGOFLOW_AB" = "xB"
    ∧ applyReplacements [("ARGOFLOW_AB", "y"), ("ARGOFLOW_A", "x")] "$ARGOFLOW_AB" = "y"
    ∧ "xB" ≠ "y" :=
  ⟨by decide, by decide, by decide⟩

/-- C2 amended: substitution is sequential in the iteration order of the
mapping, not longest-key-first. For keys `short` and `short ++ suffix`
(one a proper prefix of the other), an occurrence of the longer key's token
is replaced by the longer key's value when the longer key's entry is
iterated first (and the shorter token does not reoccur in that value);
when the shorter key's entry is iterated first, the occurrence is partially
consumed: the shorter key's value replaces the shorter token and the
remainder of the longer token survives. -/
theorem substitution_sequential (short suffix vl vs : String) (hsuf : suffix ≠ "") :
    (listContains ("$" ++ short).data vl.data = false →
      applyReplacements [(short ++ suffix, vl), (short, vs)]
        ("$" ++ (short ++ suffix)) = vl)
    ∧ (listContains ("$" ++ short).data suffix.data = false →
       listContains ("$" ++ (short ++ suffix)).data (vs ++ suffix).data = false →
      applyReplacements [(short, vs), (short ++ suffix, vl)]
        ("$" ++ (short ++ suffix)) = vs ++ suffix) := by
  constructor
  · intro hocc
    show strReplace (strReplace ("$" ++ (short ++ suffix)) ("$" ++ (short ++ suffix)) vl)
      ("$" ++ short) vs = vl
    have h1 : strReplace ("$" ++ (short ++ suffix)) ("$" ++ (short ++ suffix)) vl = vl :=
      congrArg String.mk
        (pyReplaceGo_self ("$" ++ (short ++ suffix)).data vl.data (by simp))
    rw [h1]
    exact strReplace_no_occ vl _ vs hocc
  · intro h1 h2
    show strReplace (strReplace ("$" ++ (short ++ suffix)) ("$" ++ short) vs)
      ("$" ++ (short ++ suffix)) vl = vs ++ suffix
    have e1 : strReplace ("$" ++ (short ++ suffix)) ("$" ++ short) vs = vs ++ suffix := by
      apply congrArg String.mk
      show pyReplaceGo ("$" ++ short).data vs.data
        (("$" ++ short).data ++ suffix.data) 0 = (vs ++ suffix).data
      rw [pyReplaceGo_head_match _ _ _ (by simp), pyReplaceGo_no_occ _ _ _ h1]
      exact (String.data_append vs suffix).symm
    rw [e1]
    exact strReplace_no_occ (vs ++ suffix) _ vl h2

/-- Witness for the C2 amended theorem, at keys `ARGOFLOW_A` and
`ARGOFLOW_AB` with values `x` and `y`. -/
theorem substitution_sequential_witness :
    applyReplacements [("ARGOFLOW_AB", "y"), ("ARGOFLOW_A", "x")]
      ("$" ++ ("ARGOFLOW_A" ++ "B")) = "y"
    ∧ applyReplacements [("ARGOFLOW_A", "x"), ("ARGOFLOW_AB", "y")]
      ("$" ++ ("ARGOFLOW_A" ++ "B")) = "x" ++ "B" :=
  ⟨(substitution_sequential "ARGOFLOW_A" "B" "y" "x" (by decide)).1 (by decide),
    (substitution_sequential "ARGOFLOW_A" "B" "y" "x" (by decide)).2
      (by decide) (by decide)⟩

/-- C3 counterexample: in `.helpers/replace.py` a key present in no tier
does not fail. With an empty config and environment, the rendered output
still contains the unresolved token `$ARGOFLOW_MISSING` verbatim — the
script returns a value and silently leaves the key unresolved (its
docstring says: `else do nothing`). -/
theorem missing_key_left_unresolved :
    applyReplacements (buildD none []) "$ARGOFLOW_MISSING" = "$ARGOFLOW_MISSING" := by
  decide

/-- C3 amended: the failure behaviour depends on the path. In the
pydantic-settings path (`argoflow.py`, `secrets/argoflow_secrets.py`), a
field with no environment value (after env-file loading) and no generated
default fails with a `ValidationError`. In the `.helpers/replace.py` path,
a key not in the substitution dict leaves its token verbatim in the output:
no error is raised. -/
theorem missing_key_behaviour :
    (∀ (env config : List (String × String)) (k : String),
      dget env k = none → dget config k = none →
      resolveField (loadEnvFile env config) k none
        = .error ("ValidationError: field required: " ++ k))
    ∧ (∀ (d : List (String × String)) (t : String),
      (∀ p ∈ d, listContains ("$" ++ p.1).data t.data = false) →
      applyReplacements d t = t) := by
  constructor
  · intro env config k henv hconf
    have h2 := loadEnvFile_none config env k henv hconf
    simp [resolveField, h2]
  · exact applyReplacements_no_occ

/-- Witness for the C3 amended theorem: the field `C` is in neither the
environment nor the env file and has no default, so instantiation fails;
and a text whose only token names a key outside the dict passes through
`.helpers/replace.py` unchanged. -/
theorem missing_key_behaviour_witness :
    resolveField (loadEnvFile [("A", "1")] [("B", "2")]) "C" none
      = .error ("ValidationError: field required: " ++ "C")
    ∧ applyReplacements [("ARGOFLOW_A", "x")] "$ARGOFLOW_B" = "$ARGOFLOW_B" :=
  ⟨missing_key_behaviour.1 [("A", "1")] [("B", "2")] "C" (by decide) (by decide),
    missing_key_behaviour.2 [("ARGOFLOW_A", "x")] "$ARGOFLOW_B" (by decide)⟩

/-!
## `secrets/argoflow_secrets.py`

External binaries and libraries (`kubectl`, `kubeseal`, `base64`) are
treated as collaborators: abstract deterministic functions gathered in
`Tools`, exactly as the script treats them (text in, text out).
-/

/-- The payload of a Kubernetes secret in `argoflow_secrets.py`:
`data: Union[Dict[str,str], str]`. -/
inductive SecretData
  | dict (kvs : List (String × String))
  | str (contents : String)

/-- Embeds the pydantic `Secret` model of `secrets/argoflow_secrets.py`
(`name`, `namespace`, `data`, `filename`); `namespace` is a Lean keyword,
so the field is called `nspace`. -/
structure Secret where
  name : String
  nspace : String
  data : SecretData
  filename : Option String := none

/-- The external text-to-text collaborators used by the script:
`kubectl create --dry-run=client -o yaml ...` on argument lists
(`kubectl_yaml`), the same piped variant used for `--from-file=.../dev/stdin`
(`pipeFile`), `base64.b64encode` and `kubeseal`. -/
structure Tools where
  kubectl : List String → String
  pipeFile : List String → String → String
  b64 : String → String
  sealTool : String → String

/-- Embeds `Secret.__str__`: a dict payload goes through
`kubectl create secret generic -n ns name --from-literal=k=v ...`; a string
payload requires a filename (else `ValueError`) and is piped through
`kubectl ... --from-file=filename=/dev/stdin`. -/
def Secret.render (tools : Tools) (s : Secret) : Except String String :=
  match s.data with
  | .dict kvs =>
    .ok (tools.kubectl (["secret", "generic", "-n", s.nspace, s.name]
      ++ kvs.map (fun p => "--from-literal=" ++ p.1 ++ "=" ++ p.2)))
  | .str contents =>
    match s.filename with
    | none => .error "Data is a string (file contents) but no filename specified."
    | some fn =>
      .ok (tools.pipeFile
        ["secret", "generic", "-n", s.nspace, s.name, "--from-file=" ++ fn ++ "=/dev/stdin"]
        contents)

/-- Embeds `Secret.yaml(raw=...)`: render the manifest; when `raw` is true,
replace the base64 encoding of every data value by the original value (for
the vault argocd plugin). -/
def Secret.yamlOut (tools : Tools) (raw : Bool) (s : Secret) : Except String String :=
  (s.render tools).map fun output =>
    if raw then
      let to_replace := match s.data with
        | .str c => [c]
        | .dict kvs => kvs.map Prod.snd
      to_replace.foldl (fun out v => strReplace out (tools.b64 v) v) output
    else output

/-- Embeds `Secret.kubeseal`: pipe the (non-raw) yaml through `kubeseal`. -/
def Secret.kubesealOut (tools : Tools) (s : Secret) : Except String String :=
  (s.yamlOut tools false).map tools.sealTool

/-- The `--oauth-type` choices of `secrets/argoflow_secrets.py`. -/
inductive OAuthType
  | dex
  | keycloak
  | external
deriving DecidableEq

/-- Embeds the `oidc_dest` dictionary of the `__main__` block. -/
def oidc_dest : OAuthType → String
  | .keycloak => "oidc-auth/overlays/keycloak"
  | .dex => "oidc-auth/overlays/dex"
  | .external => "oidc-auth/base"

/-- Values of the `OAuth` settings class. -/
structure OidcVars where
  OIDC_CLIENT_ID : String
  OIDC_CLIENT_SECRET : String
  COOKIE_SECRET : String

/-- Values of the `Keycloak` settings class. -/
structure KeycloakVars where
  DATABASE_PASS : String
  POSTGRESQL_PASS : String
  KEYCLOAK_ADMIN_PASS : String
  KEYCLOAK_MANAGEMENT_PASS : String

/-- Values of the `PrivateGitRepo` settings class. -/
structure RepoVars where
  GIT_HTTPS_USERNAME : String
  GIT_HTTPS_PASSWORD : String

/-- Values of the `Grafana` settings class. -/
structure GrafanaVars where
  GRAFANA_USERNAME : String
  GRAFANA_PASSWORD : String

/-- Embeds the construction of the `files` dict in the `__main__` block of
`secrets/argoflow_secrets.py` (lines 449-622), parametrised by the resolved
settings values: the oauth2-proxy secret at the backend-specific
destination, then the dex- or keycloak-specific secrets, then the optional
private-repo secret, the grafana secret, and the optional cloudflare
secrets, inserted in program order. -/
def buildFiles (oauth_type : OAuthType) (private_repo cloudflare : Bool)
    (oidc : OidcVars) (dexConfig : String) (kubeflowRealm : String)
    (kc : KeycloakVars) (repo : RepoVars) (graf : GrafanaVars)
    (cfToken : String) : List (String × Secret) :=
  let dest := oidc_dest oauth_type
  let files : List (String × Secret) := []
  let files := dset files (dest ++ "/oauth2-proxy-secret.yaml")
    { name := "oauth2-proxy", nspace := "auth",
      data := .dict [("client-id", oidc.OIDC_CLIENT_ID),
        ("client-secret", oidc.OIDC_CLIENT_SECRET),
        ("cookie-secret", oidc.COOKIE_SECRET)] }
  let files :=
    if oauth_type = .dex then
      dset files (dest ++ "/dex-config-secret.yaml")
        { name := "dex-config", nspace := "auth",
          data := .str dexConfig, filename := some "config.yaml" }
    else if oauth_type = .keycloak then
      let files := dset files (dest ++ "/kubeflow-realm-secret.yaml")
        { name := "kubeflow-realm", nspace := "auth",
          data := .str kubeflowRealm, filename := some "kubeflow-realm.json" }
      let files := dset files (dest ++ "/keycloak-secret.yaml")
        { name := "keycloak-secret", nspace := "auth",
          data := .dict [("admin-password", kc.KEYCLOAK_ADMIN_PASS),
            ("database-password", kc.DATABASE_PASS),
            ("management-password", kc.KEYCLOAK_MANAGEMENT_PASS)] }
      dset files (dest ++ "/postgresql-secret.yaml")
        { name := "keycloak-postgresql", nspace := "auth",
          data := .dict [("postgresql-password", kc.DATABASE_PASS),
            ("postgresql-postgres-password", kc.POSTGRESQL_PASS)] }
    else files
  let files :=
    if private_repo then
      dset files "argocd/overlays/private-repo/secret.yaml"
        { name := "git-repo-secret", nspace := "argocd",
          data := .dict [("HTTPS_USERNAME", repo.GIT_HTTPS_USERNAME),
            ("HTTPS_PASSWORD", repo.GIT_HTTPS_PASSWORD)] }
    else files
  let files := dset files "monitoring-resources/grafana-admin-secret.yaml"
    { name := "grafana-admin-secret", nspace := "monitoring",
      data := .dict [("admin-user", graf.GRAFANA_USERNAME),
        ("admin-password", graf.GRAFANA_PASSWORD)] }
  let files :=
    if cloudflare then
      let files := dset files
        "cloudflare-secrets/cloudflare-api-token-secret-cert-manager.yaml"
        { name := "cloudflare-api-token-secret", nspace := "cert-manager",
          data := .dict [("api-token", cfToken)] }
      dset files "cloudflare-secrets/cloudflare-api-token-secret-external-dns.yaml"
        { name := "cloudflare-api-token-secret", nspace := "kube-system",
          data := .dict [("api-token", cfToken)] }
    else files
  files

/-- C4: which secret files are emitted per OAuth backend. Every run emits
the oauth2-proxy secret at the backend-specific destination
(`oidc-auth/overlays/keycloak`, `oidc-auth/overlays/dex`, `oidc-auth/base`);
the dex backend additionally emits exactly one dex-config secret; the
keycloak backend additionally emits the kubeflow-realm, keycloak and
postgresql secrets; the external backend emits nothing backend-specific
beyond the oauth2-proxy secret (the private-repo, grafana and cloudflare
secrets are backend-independent). -/
theorem oauth_backend_secrets (pr cf : Bool) (oidc : OidcVars)
    (dexConfig kubeflowRealm : String) (kc : KeycloakVars) (repo : RepoVars)
    (graf : GrafanaVars) (cfToken : String) :
    ((buildFiles .dex pr cf oidc dexConfig kubeflowRealm kc repo graf cfToken).map
        Prod.fst
      = ["oidc-auth/overlays/dex/oauth2-proxy-secret.yaml",
          "oidc-auth/overlays/dex/dex-config-secret.yaml"]
        ++ (if pr then ["argocd/overlays/private-repo/secret.yaml"] else [])
        ++ ["monitoring-resources/grafana-admin-secret.yaml"]
        ++ (if cf then
            ["cloudflare-secrets/cloudflare-api-token-secret-cert-manager.yaml",
              "cloudflare-secrets/cloudflare-api-token-secret-external-dns.yaml"]
          else []))
    ∧ ((buildFiles .keycloak pr cf oidc dexConfig kubeflowRealm kc repo graf cfToken).map
        Prod.fst
      = ["oidc-auth/overlays/keycloak/oauth2-proxy-secret.yaml",
          "oidc-auth/overlays/keycloak/kubeflow-realm-secret.yaml",
          "oidc-auth/overlays/keycloak/keycloak-secret.yaml",
          "oidc-auth/overlays/keycloak/postgresql-secret.yaml"]
        ++ (if pr then ["argocd/overlays/private-repo/secret.yaml"] else [])
        ++ ["monitoring-resources/grafana-admin-secret.yaml"]
        ++ (if cf then
            ["cloudflare-secrets/cloudflare-api-token-secret-cert-manager.yaml",
              "cloudflare-secrets/cloudflare-api-token-secret-external-dns.yaml"]
          else []))
    ∧ ((buildFiles .external pr cf oidc dexConfig kubeflowRealm kc repo graf cfToken).map
        Prod.fst
      = ["oidc-auth/base/oauth2-proxy-secret.yaml"]
        ++ (if pr then ["argocd/overlays/private-repo/secret.yaml"] else [])
        ++ ["monitoring-resources/grafana-admin-secret.yaml"]
        ++ (if cf then
            ["cloudflare-secrets/cloudflare-api-token-secret-cert-manager.yaml",
              "cloudflare-secrets/cloudflare-api-token-secret-external-dns.yaml"]
          else []))
    ∧ (∀ t : OAuthType,
      (dget (buildFiles t pr cf oidc dexConfig kubeflowRealm kc repo graf cfToken)
          (oidc_dest t ++ "/oauth2-proxy-secret.yaml")).map Secret.name
        = some "oauth2-proxy")
    ∧ ((buildFiles .dex pr cf oidc dexConfig kubeflowRealm kc repo graf cfToken).countP
        (fun p => p.2.name == "dex-config") = 1)
    ∧ ((buildFiles .keycloak pr cf oidc dexConfig kubeflowRealm kc repo graf cfToken).countP
        (fun p => p.2.name == "dex-config") = 0)
    ∧ ((buildFiles .external pr cf oidc dexConfig kubeflowRealm kc repo graf cfToken).countP
        (fun p => p.2.name == "dex-config") = 0)
    ∧ ((dget (buildFiles .keycloak pr cf oidc dexConfig kubeflowRealm kc repo graf cfToken)
        "oidc-auth/overlays/keycloak/kubeflow-realm-secret.yaml").map Secret.name
      = some "kubeflow-realm")
    ∧ ((dget (buildFiles .keycloak pr cf oidc dexConfig kubeflowRealm kc repo graf cfToken)
        "oidc-auth/overlays/keycloak/keycloak-secret.yaml").map Secret.name
      = some "keycloak-secret")
    ∧ ((dget (buildFiles .keycloak pr cf oidc dexConfig kubeflowRealm kc repo graf cfToken)
        "oidc-auth/overlays/keycloak/postgresql-secret.yaml").map Secret.name
      = some "keycloak-postgresql") := by
  cases pr <;> cases cf <;>
    exact ⟨rfl, rfl, rfl, fun t => by cases t <;> rfl, rfl, rfl, rfl, rfl, rfl, rfl⟩

/-- The `secret_type` choices of the `parse()` argument parser. -/
def secret_type_choices : List String := ["raw", "generated", "vault", "sealed"]

/-- Embeds argparse validation of the positional `secret_type` argument:
a value outside `choices` is rejected (argparse exits with an error). -/
def parse_secret_type (s : String) : Option String :=
  if s ∈ secret_type_choices then some s else none

/-- The four output forms of the secret generator. -/
inductive Encoding
  | rawPrint
  | generated
  | vaultRef
  | sealedSecret
deriving DecidableEq

/-- Embeds the output dispatch of the `__main__` block: `raw` prints the
variables and exits (line 629); otherwise each collected secret is rendered
`generated` → `secret.yaml()`, `sealed` → `secret.kubeseal()`,
`vault` → `secret.yaml(raw=True)`, and any other string reaches
`raise Exception('This should be impossible.')` (line 667). -/
def chooseEncoding (secret_type : String) : Except String Encoding :=
  if secret_type = "raw" then .ok .rawPrint
  else if secret_type = "generated" then .ok .generated
  else if secret_type = "sealed" then .ok .sealedSecret
  else if secret_type = "vault" then .ok .vaultRef
  else .error "This should be impossible."

/-- Embeds the vault pre-check of the `__main__` block (lines 649-656):
scan the collected values in order and raise `ValueError` at the first one
that does not both start with `<` and end with `>`. -/
def vaultValidate : List (String × String) → Except String Unit
  | [] => .ok ()
  | (k, val) :: rest =>
    if !(pyStartsWith val "<") || !(pyEndsWith val ">") then
      .error ("Vault secret " ++ k ++ " should look like <path>")
    else vaultValidate rest

/-- Embeds the per-file rendering of the save loop (lines 658-667). -/
def renderOne (tools : Tools) (secret_type : String) (s : Secret) :
    Except String String :=
  if secret_type = "generated" then s.yamlOut tools false
  else if secret_type = "sealed" then s.kubesealOut tools
  else if secret_type = "vault" then s.yamlOut tools true
  else .error "This should be impossible."

/-- Embeds the tail of the `__main__` block (lines 648-669): in vault mode
first validate every collected value, then render each file and write it to
`{secret_type}/{file}`. The result is the list of (destination, text)
writes; an exception aborts before any write. -/
def saveAll (tools : Tools) (secret_type : String)
    (vals : List (String × String)) (files : List (String × Secret)) :
    Except String (List (String × String)) :=
  match (if secret_type = "vault" then vaultValidate vals else .ok ()) with
  | .error e => .error e
  | .ok _ =>
    files.mapM (fun p =>
      (renderOne tools secret_type p.2).map
        (fun data => (secret_type ++ "/" ++ p.1, data)))

/-- C5: the generator accepts exactly the four secret types `raw`,
`generated`, `vault` and `sealed`; every accepted type is dispatched to
exactly one of the four encodings (raw printing, generated manifest,
vault reference, sealed secret), and any other requested type is rejected
by the argument parser. -/
theorem four_secret_types (s : String) :
    ((parse_secret_type s).isSome
      ↔ (s = "raw" ∨ s = "generated" ∨ s = "vault" ∨ s = "sealed"))
    ∧ (∀ t, parse_secret_type s = some t →
        ∃ e, chooseEncoding t = .ok e ∧ ∀ e', chooseEncoding t = .ok e' → e' = e)
    ∧ chooseEncoding "raw" = .ok .rawPrint
    ∧ chooseEncoding "generated" = .ok .generated
    ∧ chooseEncoding "vault" = .ok .vaultRef
    ∧ chooseEncoding "sealed" = .ok .sealedSecret := by
  refine ⟨?_, ?_, rfl, rfl, rfl, rfl⟩
  · simp [parse_secret_type, secret_type_choices]
  · intro t ht
    have hs : t = s ∧ s ∈ secret_type_choices := by
      by_cases h : s ∈ secret_type_choices
      · simp [parse_secret_type, h] at ht
        exact ⟨ht.symm, h⟩
      · simp [parse_secret_type, h] at ht
    rcases hs with ⟨rfl, hmem⟩
    simp [secret_type_choices] at hmem
    rcases hmem with rfl | rfl | rfl | rfl
    · exact ⟨.rawPrint, rfl, fun e' h => by simpa [chooseEncoding] using h.symm⟩
    · exact ⟨.generated, rfl, fun e' h => by simpa [chooseEncoding] using h.symm⟩
    · exact ⟨.vaultRef, rfl, fun e' h => by simpa [chooseEncoding] using h.symm⟩
    · exact ⟨.sealedSecret, rfl, fun e' h => by simpa [chooseEncoding] using h.symm⟩

/-- Witness for C5 at the concrete input `vault`: it is accepted and
dispatched to the unique vault-reference encoding. -/
theorem four_secret_types_witness :
    ∃ e, chooseEncoding "vault" = .ok e
      ∧ ∀ e', chooseEncoding "vault" = .ok e' → e' = e :=
  (four_secret_types "vault").2.1 "vault" (by decide)

theorem vaultValidate_ok_iff (vals : List (String × String)) :
    vaultValidate vals = .ok ()
      ↔ ∀ p ∈ vals, pyStartsWith p.2 "<" = true ∧ pyEndsWith p.2 ">" = true := by
  induction vals with
  | nil => simp [vaultValidate]
  | cons p vals ih =>
    obtain ⟨k, val⟩ := p
    by_cases h1 : pyStartsWith val "<"
    <;> by_cases h2 : pyEndsWith val ">"
    <;> simp [vaultValidate, h1, h2, ih]

theorem vaultValidate_error_of_bad (vals : List (String × String)) (k v : String)
    (hmem : (k, v) ∈ vals)
    (hbad : pyStartsWith v "<" = false ∨ pyEndsWith v ">" = false) :
    ∃ msg, vaultValidate vals = .error msg := by
  have hne : vaultValidate vals ≠ .ok () := by
    rw [Ne, vaultValidate_ok_iff]
    intro hall
    rcases hbad with hb | hb
    · exact absurd (hall (k, v) hmem).1 (by simp [hb])
    · exact absurd (hall (k, v) hmem).2 (by simp [hb])
  cases hv : vaultValidate vals with
  | ok u => cases u; exact absurd hv hne
  | error e => exact ⟨e, rfl⟩

/-- C9: in vault mode the pre-check runs before any file is rendered or
written. If the save phase produces writes, every collected value starts
with `<` and ends with `>`; and if any collected value fails that shape,
the run raises `ValueError` and produces no writes. -/
theorem vault_mode_validation (tools : Tools) (vals : List (String × String))
    (files : List (String × Secret)) :
    (∀ out, saveAll tools "vault" vals files = .ok out →
      ∀ p ∈ vals, pyStartsWith p.2 "<" = true ∧ pyEndsWith p.2 ">" = true)
    ∧ (∀ k v, (k, v) ∈ vals →
      (pyStartsWith v "<" = false ∨ pyEndsWith v ">" = false) →
      ∃ msg, saveAll tools "vault" vals files = .error msg) := by
  constructor
  · intro out hok
    unfold saveAll at hok
    rw [if_pos rfl] at hok
    cases hv : vaultValidate vals with
    | error e =>
      rw [hv] at hok
      exact absurd hok (by simp)
    | ok u =>
      cases u
      exact (vaultValidate_ok_iff vals).mp hv
  · intro k v hmem hbad
    obtain ⟨msg, hmsg⟩ := vaultValidate_error_of_bad vals k v hmem hbad
    refine ⟨msg, ?_⟩
    unfold saveAll
    rw [if_pos rfl, hmsg]

/-- Witness for C9: with the placeholder value `<secret/path>` the vault
save succeeds and the shape facts hold; with the value `raw-secret` the
run errors out before writing. -/
theorem vault_mode_validation_witness :
    (∀ p ∈ [("k", "<secret/path>")],
      pyStartsWith p.2 "<" = true ∧ pyEndsWith p.2 ">" = true)
    ∧ ∃ msg, saveAll ⟨fun _ => "", fun _ _ => "", fun s => s, fun s => s⟩ "vault"
        [("k", "raw-secret")] [] = .error msg :=
  ⟨(vault_mode_validation ⟨fun _ => "", fun _ _ => "", fun s => s, fun s => s⟩
      [("k", "<secret/path>")] []).1 [] (by rfl),
    (vault_mode_validation ⟨fun _ => "", fun _ _ => "", fun s => s, fun s => s⟩
      [("k", "raw-secret")] []).2 "k" "raw-secret" (by decide) (Or.inl (by decide))⟩

/-!
## C8: secret emission as a pure mapping
-/

/-- Embeds one printed line of the `raw` output block (lines 629-643):
`ENV_NAME="value"` with newlines escaped. -/
def rawLine (p : String × String) : String :=
  p.1 ++ "=\"" ++ strReplace p.2 "\n" "\\n" ++ "\""

/-- The state a run carries into the output phase: the collected variable
values and the collected secret files. -/
structure RunState where
  vars : List (String × String)
  files : List (String × Secret)

/-- The output of one encoding from a given state, paired with the state it
leaves behind. Mirrors the output phase of `secrets/argoflow_secrets.py`:
raw prints the variables; generated/sealed/vault render every collected
secret (vault after validating the variable values); none of them assigns
to `vars` or `files`. -/
def emitOne (tools : Tools) (st : RunState) :
    Encoding → RunState × Except String (List String)
  | .rawPrint => (st, .ok (st.vars.map rawLine))
  | .generated => (st, st.files.mapM (fun p => p.2.yamlOut tools false))
  | .sealedSecret => (st, st.files.mapM (fun p => p.2.kubesealOut tools))
  | .vaultRef =>
    (st, (vaultValidate st.vars).bind
      (fun _ => st.files.mapM (fun p => p.2.yamlOut tools true)))

/-- Running a sequence of encodings, threading the state. -/
def emitSeq (tools : Tools) :
    List Encoding → RunState → RunState × List (Except String (List String))
  | [], st => (st, [])
  | e :: rest, st =>
    let r := emitOne tools st e
    let rr := emitSeq tools rest r.1
    (rr.1, r.2 :: rr.2)

theorem emitOne_fst (tools : Tools) (st : RunState) (e : Encoding) :
    (emitOne tools st e).1 = st := by
  cases e <;> rfl

/-- C8: secret emission is a pure mapping with no shared mutable state.
Producing any sequence of encodings leaves the collected dictionary (vars
and files) unchanged, and the output of each encoding in the sequence
equals the output of that encoding alone from the initial state: it is
determined solely by the fixed dictionary and the external tools, is the
same on repeated runs, and is unaffected by which other encodings run. -/
theorem secret_emission_pure (tools : Tools) (encs : List Encoding) (st : RunState) :
    (emitSeq tools encs st).1 = st
    ∧ (emitSeq tools encs st).2 = encs.map (fun e => (emitOne tools st e).2) := by
  induction encs generalizing st with
  | nil => exact ⟨rfl, rfl⟩
  | cons e rest ih =>
    have h1 := emitOne_fst tools st e
    constructor
    · show (emitSeq tools rest (emitOne tools st e).1).1 = st
      rw [h1]
      exact (ih st).1
    · show (emitOne tools st e).2 :: (emitSeq tools rest (emitOne tools st e).1).2
        = ((e :: rest).map (fun e => (emitOne tools st e).2))
      rw [h1, (ih st).2, List.map_cons]

/-!
## C10: `write` never clobbers existing output
-/

/-- Embeds `write` from `secrets/argoflow_secrets.py` (lines 72-88) over a
filesystem snapshot embedded as a path-to-contents dict (`makedirs` is a
directory-only side effect and is not part of the snapshot): with no
destination the text is only printed; when the destination exists and
`overwrite` is false the function returns without writing; otherwise the
file is written. -/
def write (fs : List (String × String)) (text : String) (dest : Option String)
    (overwrite : Bool) : List (String × String) :=
  match dest with
  | none => fs
  | some d =>
    if (dget fs d).isSome then
      if overwrite = false then fs
      else dset fs d text
    else dset fs d text

/-- C10: `write` never clobbers existing output. For a destination that
already exists: with `overwrite = False` the whole filesystem, and in
particular the existing contents, are unchanged; with `overwrite = True`
the contents become the new text; and the contents change to the new text
only when `overwrite` is true. -/
theorem write_no_clobber (fs : List (String × String)) (text d old : String) :
    (dget fs d = some old → write fs text (some d) false = fs)
    ∧ (dget fs d = some old → dget (write fs text (some d) false) d = some old)
    ∧ dget (write fs text (some d) true) d = some text
    ∧ (∀ ow : Bool, dget fs d = some old → old ≠ text →
        dget (write fs text (some d) ow) d = some text → ow = true) := by
  have hw : dget fs d = some old → write fs text (some d) false = fs := by
    intro h
    show (if (dget fs d).isSome = true then
        if false = false then fs else dset fs d text
      else dset fs d text) = fs
    rw [if_pos (by rw [h]; rfl), if_pos rfl]
  refine ⟨hw, ?_, ?_, ?_⟩
  · intro h
    rw [hw h]
    exact h
  · show dget (if (dget fs d).isSome = true then
        if true = false then fs else dset fs d text
      else dset fs d text) d = some text
    by_cases hs : (dget fs d).isSome = true
    · rw [if_pos hs, if_neg (by simp)]
      exact dget_dset_self fs d text
    · rw [if_neg hs]
      exact dget_dset_self fs d text
  · intro ow h hne hgot
    cases ow with
    | true => rfl
    | false =>
      rw [hw h, h] at hgot
      exact absurd (Option.some.inj hgot) hne

/-- Witness for C10: an existing file keeps its contents under
`overwrite = False` and is replaced under `overwrite = True`. -/
theorem write_no_clobber_witness :
    write [("vault/a.yaml", "old")] "new" (some "vault/a.yaml") false
      = [("vault/a.yaml", "old")]
    ∧ dget (write [("vault/a.yaml", "old")] "new" (some "vault/a.yaml") false)
        "vault/a.yaml" = some "old" :=
  ⟨(write_no_clobber [("vault/a.yaml", "old")] "new" "vault/a.yaml" "old").1
      (by decide),
    (write_no_clobber [("vault/a.yaml", "old")] "new" "vault/a.yaml" "old").2.1
      (by decide)⟩

end Argoflow
